import Mathlib

/-!
Verification of the cborg CBOR major-type-7 (float / simple value) codec and
the hex byte utilities.

Doubles, singles and halves are modelled by their IEEE-754 bit patterns as
natural numbers (64, 32 and 16 bits respectively).  The float codec itself is
not present under `src/` (only its test suite is), so its definitions are
modelled from the specification; the hex utilities are translated from
`src/lib/byte-utils.js`.
-/

namespace Cborg

/-! ### Big-endian byte serialization -/

/-- Serialize the low `w` bytes of `n` in big-endian order. -/
def toBytesBE : Nat → Nat → List Nat
  | 0, _ => []
  | w + 1, n => n / 2 ^ (8 * w) % 256 :: toBytesBE w n

/-- Read a big-endian byte list back into a natural number. -/
def fromBytesBE : List Nat → Nat
  | [] => 0
  | b :: rest => b * 2 ^ (8 * rest.length) + fromBytesBE rest

theorem toBytesBE_length (w n : Nat) : (toBytesBE w n).length = w := by
  induction w generalizing n with
  | zero => rfl
  | succ w ih => simp [toBytesBE, ih]

theorem fromBytesBE_toBytesBE (w n : Nat) :
    fromBytesBE (toBytesBE w n) = n % 2 ^ (8 * w) := by
  induction w generalizing n with
  | zero => simp [toBytesBE, fromBytesBE, Nat.mod_one]
  | succ w ih =>
    have hmul : (2 : Nat) ^ (8 * (w + 1)) = 2 ^ (8 * w) * 2 ^ 8 := by
      rw [← pow_add]; ring_nf
    rw [toBytesBE, fromBytesBE, ih, toBytesBE_length, hmul, Nat.mod_mul]
    have h256 : (256 : Nat) = 2 ^ 8 := by norm_num
    rw [h256]
    ring

/-- Fuel-bounded floor of the base-2 logarithm (structural recursion so that
it reduces inside the kernel). -/
def log2Aux : Nat → Nat → Nat
  | 0, _ => 0
  | fuel + 1, n => if n < 2 then 0 else log2Aux fuel (n / 2) + 1

/-- Floor of the base-2 logarithm for the 64-bit quantities used here. -/
def log2floor (n : Nat) : Nat := log2Aux 64 n

/-! ### IEEE-754 bit-pattern helpers (doubles as 64-bit patterns) -/

/-- The sign bit of a double bit pattern. -/
def sign64 (d : Nat) : Nat := d / 2 ^ 63

/-- The 11-bit biased exponent field of a double bit pattern. -/
def exp64 (d : Nat) : Nat := d / 2 ^ 52 % 2 ^ 11

/-- The 52-bit mantissa field of a double bit pattern. -/
def mant64 (d : Nat) : Nat := d % 2 ^ 52

/-- The platform's canonical quiet NaN bit pattern. -/
def canonicalNaN : Nat := 0x7FF8000000000000

/-- The bit pattern of +Infinity. -/
def posInf : Nat := 0x7FF0000000000000

/-- The bit pattern of -Infinity. -/
def negInf : Nat := 0xFFF0000000000000

/-- Whether a double bit pattern is a NaN. -/
def isNaN64 (d : Nat) : Bool := exp64 d = 2047 && mant64 d ≠ 0

/-- Whether a double bit pattern is ±Infinity. -/
def isInf64 (d : Nat) : Bool := exp64 d = 2047 && mant64 d = 0

/-- Whether a double bit pattern is finite (neither NaN nor ±Infinity). -/
def isFinite64 (d : Nat) : Bool := exp64 d ≠ 2047

/-- JavaScript `deepStrictEqual` on numbers: bit equality, except that all
NaN payloads are identified (and `+0`/`-0` stay distinct). -/
def jsEqNum (a b : Nat) : Bool := a = b || (isNaN64 a && isNaN64 b)

/-! ### Half-precision converter

Modelled from the spec: `halfToDouble` decomposes a 16-bit pattern into sign,
5-bit exponent and 10-bit mantissa; exponent 31 gives signed Infinity or the
canonical NaN, exponent 0 gives a signed zero or a subnormal
`sign * mantissa/1024 * 2^-14`, and otherwise the normal value
`sign * (1 + mantissa/1024) * 2^(exponent-15)`.  The result is returned as an
exact double bit pattern (every half value is exactly representable as a
double). -/
def halfToDouble (h : Nat) : Nat :=
  let s := h / 2 ^ 15
  let e := h / 2 ^ 10 % 32
  let m := h % 2 ^ 10
  if e = 31 then
    if m = 0 then s * 2 ^ 63 + 2047 * 2 ^ 52 else canonicalNaN
  else if e = 0 then
    if m = 0 then s * 2 ^ 63
    else
      let k := log2floor m
      s * 2 ^ 63 + (k + 999) * 2 ^ 52 + (m - 2 ^ k) * 2 ^ (52 - k)
  else
    s * 2 ^ 63 + (e + 1008) * 2 ^ 52 + m * 2 ^ 42

/-- Modelled from the spec: exact widening of a 32-bit single-precision bit
pattern to a double bit pattern, with every NaN payload mapped to the
canonical NaN. -/
def singleToDouble (w : Nat) : Nat :=
  let s := w / 2 ^ 31
  let e := w / 2 ^ 23 % 256
  let m := w % 2 ^ 23
  if e = 255 then
    if m = 0 then s * 2 ^ 63 + 2047 * 2 ^ 52 else canonicalNaN
  else if e = 0 then
    if m = 0 then s * 2 ^ 63
    else
      let k := log2floor m
      s * 2 ^ 63 + (k + 874) * 2 ^ 52 + (m - 2 ^ k) * 2 ^ (52 - k)
  else
    s * 2 ^ 63 + (e + 896) * 2 ^ 52 + m * 2 ^ 29

/-- Round `M / 2^shift` to the nearest integer, ties to even. -/
def rshiftRNE (M shift : Nat) : Nat :=
  if shift = 0 then M
  else
    let d := M / 2 ^ shift
    let r := M % 2 ^ shift
    let mid := 2 ^ (shift - 1)
    if r > mid then d + 1
    else if r < mid then d
    else if d % 2 = 0 then d else d + 1

/-- Round the real number `M * 2^E` to the nearest multiple of `2^u`,
ties to even, returning the multiplier. -/
def rneAt (M : Nat) (E u : Int) : Nat :=
  if E ≥ u then M * 2 ^ (E - u).toNat
  else rshiftRNE M (u - E).toNat

/-- Modelled from the spec: IEEE-754 round-to-nearest-even narrowing of a
positive magnitude `M * 2^E` into a float format with `mb` mantissa bits and
normal exponent range `[emin, emax]`, saturating to the Infinity pattern
`infPat` on overflow and denormalizing on underflow.  Returns the combined
exponent/mantissa field (without the sign bit). -/
def narrowMag (mb : Nat) (emin emax : Int) (infPat : Nat) (M : Nat) (E : Int) : Nat :=
  if M = 0 then 0
  else
    let r : Int := E + log2floor M
    if r > emax then infPat
    else if r < emin then rneAt M E (emin - mb)
    else (r - emin + 1).toNat * 2 ^ mb + rneAt M E (r - mb) - 2 ^ mb

/-- The mantissa (as an integer) and the power-of-two exponent of a finite
double bit pattern. -/
def dblMantExp (d : Nat) : Nat × Int :=
  let e := exp64 d
  let m := mant64 d
  if e = 0 then (m, -1074) else (2 ^ 52 + m, (e : Int) - 1075)

/-- Modelled from the spec: IEEE-754 round-to-nearest-even narrowing of a
double bit pattern to a 16-bit half-precision pattern, saturating to Infinity
on overflow and denormalizing on underflow; NaN narrows to a quiet NaN. -/
def doubleToHalf (d : Nat) : Nat :=
  let s := sign64 d
  if exp64 d = 2047 then
    if mant64 d = 0 then (s * 2 ^ 15 + 31 * 2 ^ 10) % 2 ^ 16
    else (s * 2 ^ 15 + 31 * 2 ^ 10 + 2 ^ 9) % 2 ^ 16
  else
    let me := dblMantExp d
    (s * 2 ^ 15 + narrowMag 10 (-14) 15 (31 * 2 ^ 10) me.1 me.2) % 2 ^ 16

/-- Modelled from the spec: IEEE-754 round-to-nearest-even narrowing of a
double bit pattern to a 32-bit single-precision pattern. -/
def doubleToSingle (d : Nat) : Nat :=
  let s := sign64 d
  if exp64 d = 2047 then
    if mant64 d = 0 then (s * 2 ^ 31 + 255 * 2 ^ 23) % 2 ^ 32
    else (s * 2 ^ 31 + 255 * 2 ^ 23 + 2 ^ 22) % 2 ^ 32
  else
    let me := dblMantExp d
    (s * 2 ^ 31 + narrowMag 23 (-126) 127 (255 * 2 ^ 23) me.1 me.2) % 2 ^ 32

/-! ### Decoder data model -/

/-- Decode-time options, with the documented defaults. -/
structure DecodeOptions where
  allowIndefinite : Bool := true
  allowUndefined : Bool := true
  coerceUndefinedToNull : Bool := false
  allowInfinity : Bool := true
  allowNaN : Bool := true
  strict : Bool := false

/-- Encode-time options, with the documented default. -/
structure EncodeOptions where
  float64 : Bool := false

/-- The caller-facing decoded value model (numbers carry their double bit
pattern). -/
inductive Value where
  | num (bits : Nat)
  | bool (b : Bool)
  | vnull
  | vundefined
  | int (n : Nat)
  | negint (n : Nat)
  | arr (vs : List Value)

/-- The result of decoding one item: either a proper value or the BREAK
marker, whose validity is judged by the surrounding structural decoder. -/
inductive Tok7 where
  | val (v : Value)
  | brk

/-- Modelled from the spec: special-value gating applied after a float token
of any width is produced — NaN is checked first against `allowNaN`, then
±Infinity against `allowInfinity`, and otherwise the value is returned. -/
def gateFloat (d : Nat) (rest : List Nat) (o : DecodeOptions) :
    Except String (Tok7 × List Nat) :=
  if isNaN64 d && !o.allowNaN then Except.error "NaN values are not supported"
  else if isInf64 d && !o.allowInfinity then
    Except.error "Infinity values are not supported"
  else Except.ok (Tok7.val (Value.num d), rest)

/-- A double bit pattern as decoded from the wire: NaN payloads collapse to
the canonical platform NaN. -/
def canon64 (d : Nat) : Nat := if isNaN64 d then canonicalNaN else d

/-- Modelled from the spec: the major-type-7 token decoder.  `minor` is the
low 5 bits of the prefix byte and `rest` the bytes following it. -/
def decodeMajor7 (minor : Nat) (rest : List Nat) (o : DecodeOptions) :
    Except String (Tok7 × List Nat) :=
  if minor = 20 then Except.ok (Tok7.val (Value.bool false), rest)
  else if minor = 21 then Except.ok (Tok7.val (Value.bool true), rest)
  else if minor = 22 then Except.ok (Tok7.val Value.vnull, rest)
  else if minor = 23 then
    if !o.allowUndefined then Except.error "undefined values are not supported"
    else if o.coerceUndefinedToNull then Except.ok (Tok7.val Value.vnull, rest)
    else Except.ok (Tok7.val Value.vundefined, rest)
  else if minor = 25 then
    match rest with
    | b0 :: b1 :: rest2 =>
        gateFloat (halfToDouble (fromBytesBE [b0, b1])) rest2 o
    | _ => Except.error "not enough data for float16"
  else if minor = 26 then
    match rest with
    | b0 :: b1 :: b2 :: b3 :: rest2 =>
        gateFloat (singleToDouble (fromBytesBE [b0, b1, b2, b3])) rest2 o
    | _ => Except.error "not enough data for float32"
  else if minor = 27 then
    match rest with
    | b0 :: b1 :: b2 :: b3 :: b4 :: b5 :: b6 :: b7 :: rest2 =>
        gateFloat (canon64 (fromBytesBE [b0, b1, b2, b3, b4, b5, b6, b7])) rest2 o
    | _ => Except.error "not enough data for float64"
  else if minor = 31 then
    if !o.allowIndefinite then Except.error "indefinite length items not allowed"
    else Except.ok (Tok7.brk, rest)
  else Except.error "simple values are not supported"

mutual

/-- Modelled from the spec: the decode loop for one item, restricted to the
major types the float test corpus exercises (small non-negative and negative
integers, short definite arrays and major type 7).  `fuel` bounds recursion
depth; one byte is consumed per item so `input length + 1` always suffices. -/
def decodeItem : Nat → List Nat → DecodeOptions → Except String (Tok7 × List Nat)
  | 0, _, _ => Except.error "out of fuel"
  | _ + 1, [], _ => Except.error "not enough data"
  | fuel + 1, b :: rest, o =>
    let major := b / 32
    let minor := b % 32
    if major = 0 then
      if minor ≤ 23 then Except.ok (Tok7.val (Value.int minor), rest)
      else Except.error "unsupported integer size"
    else if major = 1 then
      if minor ≤ 23 then Except.ok (Tok7.val (Value.negint minor), rest)
      else Except.error "unsupported integer size"
    else if major = 4 then
      if minor ≤ 23 then
        match decodeList fuel minor [] rest o with
        | Except.error e => Except.error e
        | Except.ok (vs, rest2) => Except.ok (Tok7.val (Value.arr vs), rest2)
      else Except.error "unsupported array size"
    else if major = 7 then decodeMajor7 minor rest o
    else Except.error "unsupported major type"

/-- Modelled from the spec: decode `n` successive items of a definite-length
array; a BREAK token in item position is a structural error. -/
def decodeList : Nat → Nat → List Value → List Nat → DecodeOptions →
    Except String (List Value × List Nat)
  | _, 0, acc, rest, _ => Except.ok (acc.reverse, rest)
  | 0, _ + 1, _, _, _ => Except.error "out of fuel"
  | fuel + 1, n + 1, acc, rest, o =>
    match decodeItem fuel rest o with
    | Except.error e => Except.error e
    | Except.ok (Tok7.brk, _) => Except.error "unexpected break to lengthed array"
    | Except.ok (Tok7.val v, rest2) => decodeList fuel n (v :: acc) rest2 o

end

/-- Modelled from the spec: the whole-message wrapper around the item
decoder; a top-level BREAK and trailing bytes are errors. -/
def finishDecode : Except String (Tok7 × List Nat) → Except String Value
  | Except.error e => Except.error e
  | Except.ok (Tok7.brk, _) => Except.error "unexpected break"
  | Except.ok (Tok7.val v, []) => Except.ok v
  | Except.ok (Tok7.val _, _ :: _) => Except.error "too many terminals"

/-- Modelled from the spec: decode a whole byte sequence to a single value;
trailing bytes and a top-level BREAK are errors. -/
def decode (bytes : List Nat) (o : DecodeOptions) : Except String Value :=
  finishDecode (decodeItem (bytes.length + 1) bytes o)

/-- Modelled from the spec: the canonical float encoder.  With `float64` set
it always emits the 9-byte form; otherwise specials get their canonical
3-byte float16 forms and finite values the narrowest width whose round trip
recovers the exact double bit pattern. -/
def encodeFloat (x : Nat) (o : EncodeOptions) : List Nat :=
  if o.float64 then 0xfb :: toBytesBE 8 x
  else if isNaN64 x then [0xf9, 0x7e, 0x00]
  else if x = posInf then [0xf9, 0x7c, 0x00]
  else if x = negInf then [0xf9, 0xfc, 0x00]
  else
    let h := doubleToHalf x
    if halfToDouble h = x then 0xf9 :: toBytesBE 2 h
    else
      let w := doubleToSingle x
      if singleToDouble w = x then 0xfa :: toBytesBE 4 w
      else 0xfb :: toBytesBE 8 x

/-! ### Hex byte utilities, translated from `src/lib/byte-utils.js` -/

/-- A byte-like argument at the JS API boundary: either a string or a
`Uint8Array` (a list of bytes). -/
inductive ByteLike where
  | str (s : String)
  | bytes (b : List Nat)

/-- One lowercase hex digit, as produced by `c.toString(16)`. -/
def hexDigit (n : Nat) : Char :=
  if n < 10 then Char.ofNat (48 + n) else Char.ofNat (87 + n)

/-- The two hex characters of one byte: `c.toString(16).padStart(2, a zero)`. -/
def byteToHexChars (b : Nat) : List Char := [hexDigit (b / 16), hexDigit (b % 16)]

/-- `toHex` from `src/lib/byte-utils.js`: a string argument is returned
unchanged, a byte argument is rendered as lowercase hex, two digits per
byte. -/
def toHex : ByteLike → String
  | ByteLike.str s => s
  | ByteLike.bytes b => String.mk (List.flatten (b.map byteToHexChars))

/-- The numeric value of a hex character, accepting both cases as
`parseInt(.., 16)` does. -/
def hexCharVal (c : Char) : Option Nat :=
  if 48 ≤ c.toNat ∧ c.toNat ≤ 57 then some (c.toNat - 48)
  else if 97 ≤ c.toNat ∧ c.toNat ≤ 102 then some (c.toNat - 87)
  else if 65 ≤ c.toNat ∧ c.toNat ≤ 70 then some (c.toNat - 55)
  else none

/-- The pair-splitting loop of `fromHex`: each two characters become
`parseInt` of a two-digit literal; `parseInt` keeps the digits before the
first invalid character and a fully invalid pair coerces to byte 0 when
stored into the `Uint8Array`. -/
def parseHexChars : List Char → List Nat
  | c1 :: c2 :: rest =>
    (match hexCharVal c1, hexCharVal c2 with
     | some hi, some lo => 16 * hi + lo
     | some hi, none => hi
     | none, _ => 0) :: parseHexChars rest
  | [c] => [(hexCharVal c).getD 0]
  | [] => []

/-- `fromHex` from `src/lib/byte-utils.js`: a `Uint8Array` argument is
returned unchanged, a string is split into character pairs and parsed. -/
def fromHex : ByteLike → List Nat
  | ByteLike.bytes b => b
  | ByteLike.str s => parseHexChars s.data

/-! ### The minimality statement, in the claim's own words -/

/-- The three candidate encodings of a double `x`: its float16, float32 and
float64 forms, shortest first. -/
def floatCandidates (x : Nat) : List (List Nat) :=
  [0xf9 :: toBytesBE 2 (doubleToHalf x),
   0xfa :: toBytesBE 4 (doubleToSingle x),
   0xfb :: toBytesBE 8 x]

/-- Following the claim's words: the shortest of the three candidate
encodings whose decoded value equals `x` under exact double-precision
comparison. -/
def shortestExact (x : Nat) : Option (List Nat) :=
  (floatCandidates x).find? fun c =>
    match decode c {} with
    | Except.ok (Value.num d) => d = x
    | _ => false

/-! ### Shared decoding lemmas -/

theorem gateFloat_default (d : Nat) (rest : List Nat) :
    gateFloat d rest {} = Except.ok (Tok7.val (Value.num d), rest) := by
  simp [gateFloat]

theorem decode_enc16 (h : Nat) (hh : h < 2 ^ 16) :
    decode (0xf9 :: toBytesBE 2 h) {} = Except.ok (Value.num (halfToDouble h)) := by
  have hstep : decode (0xf9 :: toBytesBE 2 h) {} =
      finishDecode (gateFloat (halfToDouble (fromBytesBE (toBytesBE 2 h))) [] {}) := rfl
  have hfb : fromBytesBE (toBytesBE 2 h) = h := by
    rw [fromBytesBE_toBytesBE]
    exact Nat.mod_eq_of_lt (by norm_num at hh ⊢; exact hh)
  rw [hstep, hfb, gateFloat_default]
  rfl

theorem decode_enc32 (w : Nat) (hw : w < 2 ^ 32) :
    decode (0xfa :: toBytesBE 4 w) {} = Except.ok (Value.num (singleToDouble w)) := by
  have hstep : decode (0xfa :: toBytesBE 4 w) {} =
      finishDecode (gateFloat (singleToDouble (fromBytesBE (toBytesBE 4 w))) [] {}) := rfl
  have hfb : fromBytesBE (toBytesBE 4 w) = w := by
    rw [fromBytesBE_toBytesBE]
    exact Nat.mod_eq_of_lt (by norm_num at hw ⊢; exact hw)
  rw [hstep, hfb, gateFloat_default]
  rfl

theorem decode_enc64 (x : Nat) (hx : x < 2 ^ 64) :
    decode (0xfb :: toBytesBE 8 x) {} = Except.ok (Value.num (canon64 x)) := by
  have hstep : decode (0xfb :: toBytesBE 8 x) {} =
      finishDecode (gateFloat (canon64 (fromBytesBE (toBytesBE 8 x))) [] {}) := rfl
  have hfb : fromBytesBE (toBytesBE 8 x) = x := by
    rw [fromBytesBE_toBytesBE]
    exact Nat.mod_eq_of_lt (by norm_num at hx ⊢; exact hx)
  rw [hstep, hfb, gateFloat_default]
  rfl

theorem doubleToHalf_lt (d : Nat) : doubleToHalf d < 2 ^ 16 := by
  unfold doubleToHalf
  split
  · split <;> exact Nat.mod_lt _ (by norm_num)
  · exact Nat.mod_lt _ (by norm_num)

theorem doubleToSingle_lt (d : Nat) : doubleToSingle d < 2 ^ 32 := by
  unfold doubleToSingle
  split
  · split <;> exact Nat.mod_lt _ (by norm_num)
  · exact Nat.mod_lt _ (by norm_num)

theorem isNaN64_false_of_finite (x : Nat) (hfin : isFinite64 x = true) :
    isNaN64 x = false := by
  simp only [isFinite64, decide_eq_true_eq] at hfin
  simp [isNaN64, hfin]

theorem ne_posInf_of_finite (x : Nat) (hfin : isFinite64 x = true) : x ≠ posInf := by
  intro h
  rw [h] at hfin
  simp [isFinite64, exp64, posInf] at hfin

theorem ne_negInf_of_finite (x : Nat) (hfin : isFinite64 x = true) : x ≠ negInf := by
  intro h
  rw [h] at hfin
  simp [isFinite64, exp64, negInf] at hfin

theorem canon64_of_finite (x : Nat) (hfin : isFinite64 x = true) : canon64 x = x := by
  simp [canon64, isNaN64_false_of_finite x hfin]

theorem isNaN64_canonicalNaN : isNaN64 canonicalNaN = true := by decide

/-- C2: for every finite double `x` encoded without the float64-forcing
option, `decode (encode x)` recovers exactly the bit pattern of `x`
(bitwise double equality, so negative zero is preserved). -/
theorem claim_c2_roundtrip (x : Nat) (hx : x < 2 ^ 64) (hfin : isFinite64 x = true) :
    decode (encodeFloat x {}) {} = Except.ok (Value.num x) := by
  have hnan := isNaN64_false_of_finite x hfin
  have hpos := ne_posInf_of_finite x hfin
  have hneg := ne_negInf_of_finite x hfin
  by_cases h16 : halfToDouble (doubleToHalf x) = x
  · have henc : encodeFloat x {} = 0xf9 :: toBytesBE 2 (doubleToHalf x) := by
      simp [encodeFloat, hnan, hpos, hneg, h16]
    rw [henc, decode_enc16 _ (doubleToHalf_lt x), h16]
  · by_cases h32 : singleToDouble (doubleToSingle x) = x
    · have henc : encodeFloat x {} = 0xfa :: toBytesBE 4 (doubleToSingle x) := by
        simp [encodeFloat, hnan, hpos, hneg, h16, h32]
      rw [henc, decode_enc32 _ (doubleToSingle_lt x), h32]
    · have henc : encodeFloat x {} = 0xfb :: toBytesBE 8 x := by
        simp [encodeFloat, hnan, hpos, hneg, h16, h32]
      rw [henc, decode_enc64 _ hx, canon64_of_finite x hfin]

theorem claim_c2_roundtrip_witness :
    0x3FE0000000000000 < 2 ^ 64 ∧ isFinite64 0x3FE0000000000000 = true ∧
    decode (encodeFloat 0x3FE0000000000000 {}) {} =
      Except.ok (Value.num 0x3FE0000000000000) :=
  ⟨by norm_num, by decide,
   claim_c2_roundtrip 0x3FE0000000000000 (by norm_num) (by decide)⟩

/-- C3: for every double bit pattern `x` (including NaN and ±Infinity),
`encode x {float64 := true}` emits exactly 9 bytes with first byte `0xfb`,
and decoding the result yields `x` (under JavaScript number equality, which
identifies all NaN payloads). -/
theorem claim_c3_forced_float64 (x : Nat) (hx : x < 2 ^ 64) :
    (encodeFloat x { float64 := true }).length = 9 ∧
    (encodeFloat x { float64 := true }).head? = some 0xfb ∧
    decode (encodeFloat x { float64 := true }) {} = Except.ok (Value.num (canon64 x)) ∧
    jsEqNum (canon64 x) x = true := by
  have henc : encodeFloat x { float64 := true } = 0xfb :: toBytesBE 8 x := by
    simp [encodeFloat]
  refine ⟨?_, ?_, ?_, ?_⟩
  · rw [henc]; simp [toBytesBE_length]
  · rw [henc]; rfl
  · rw [henc]; exact decode_enc64 x hx
  · by_cases hnan : isNaN64 x = true
    · simp [canon64, hnan, jsEqNum, isNaN64_canonicalNaN]
    · simp only [Bool.not_eq_true] at hnan
      simp [canon64, hnan, jsEqNum]

theorem claim_c3_forced_float64_witness :
    canonicalNaN < 2 ^ 64 ∧
    (encodeFloat canonicalNaN { float64 := true }).length = 9 ∧
    (encodeFloat canonicalNaN { float64 := true }).head? = some 0xfb ∧
    decode (encodeFloat canonicalNaN { float64 := true }) {} =
      Except.ok (Value.num (canon64 canonicalNaN)) ∧
    jsEqNum (canon64 canonicalNaN) canonicalNaN = true :=
  ⟨by norm_num [canonicalNaN], claim_c3_forced_float64 canonicalNaN (by norm_num [canonicalNaN])⟩

/-- C1: with default options the encoder emits the shortest of the three
float encodings (float16, float32, float64) whose decoded value equals `x`
exactly; in particular 0.5 encodes as `f93800` and 1.1 as
`fb3ff199999999999a`. -/
theorem claim_c1_minimal (x : Nat) (hx : x < 2 ^ 64) (hfin : isFinite64 x = true) :
    shortestExact x = some (encodeFloat x {}) ∧
    encodeFloat 0x3FE0000000000000 {} = [0xf9, 0x38, 0x00] ∧
    encodeFloat 0x3FF199999999999A {} =
      [0xfb, 0x3f, 0xf1, 0x99, 0x99, 0x99, 0x99, 0x99, 0x9a] := by
  refine ⟨?_, by decide, by decide⟩
  have d16 := decode_enc16 (doubleToHalf x) (doubleToHalf_lt x)
  have d32 := decode_enc32 (doubleToSingle x) (doubleToSingle_lt x)
  have d64 := decode_enc64 x hx
  rw [canon64_of_finite x hfin] at d64
  have hnan := isNaN64_false_of_finite x hfin
  have hpos := ne_posInf_of_finite x hfin
  have hneg := ne_negInf_of_finite x hfin
  by_cases h16 : halfToDouble (doubleToHalf x) = x
  · simp [shortestExact, floatCandidates, List.find?, d16, d32, d64, h16,
      encodeFloat, hnan, hpos, hneg]
  · by_cases h32 : singleToDouble (doubleToSingle x) = x
    · simp [shortestExact, floatCandidates, List.find?, d16, d32, d64, h16, h32,
        encodeFloat, hnan, hpos, hneg]
    · simp [shortestExact, floatCandidates, List.find?, d16, d32, d64, h16, h32,
        encodeFloat, hnan, hpos, hneg]

theorem claim_c1_minimal_witness :
    0x3FF199999999999A < 2 ^ 64 ∧ isFinite64 0x3FF199999999999A = true ∧
    shortestExact 0x3FF199999999999A = some (encodeFloat 0x3FF199999999999A {}) :=
  ⟨by norm_num, by decide,
   (claim_c1_minimal 0x3FF199999999999A (by norm_num) (by decide)).1⟩

theorem halfToDouble_nan (h : Nat) (he : h / 2 ^ 10 % 32 = 31) (hm : h % 2 ^ 10 ≠ 0) :
    halfToDouble h = canonicalNaN := by
  have he2 : h / 1024 % 32 = 31 := by simpa using he
  have hm2 : ¬h % 1024 = 0 := by simpa using hm
  simp [halfToDouble, he2, hm2]

theorem singleToDouble_nan (w : Nat) (he : w / 2 ^ 23 % 256 = 255) (hm : w % 2 ^ 23 ≠ 0) :
    singleToDouble w = canonicalNaN := by
  have he2 : w / 8388608 % 256 = 255 := by simpa using he
  have hm2 : ¬w % 8388608 = 0 := by simpa using hm
  simp [singleToDouble, he2, hm2]

/-- C4: the canonical special encodings decode to +Infinity, -Infinity and
NaN; every wider non-canonical encoding of a special (any NaN bit pattern of
any width or payload, and the float64 form of ±Infinity) decodes to the same
logical value, with every NaN payload collapsing to the single platform NaN;
and the encoder only ever produces the canonical 3-byte forms for the
specials. -/
theorem claim_c4_specials :
    (∀ h : Nat, h < 2 ^ 16 → h / 2 ^ 10 % 32 = 31 → h % 2 ^ 10 ≠ 0 →
      decode (0xf9 :: toBytesBE 2 h) {} = Except.ok (Value.num canonicalNaN)) ∧
    (∀ w : Nat, w < 2 ^ 32 → w / 2 ^ 23 % 256 = 255 → w % 2 ^ 23 ≠ 0 →
      decode (0xfa :: toBytesBE 4 w) {} = Except.ok (Value.num canonicalNaN)) ∧
    (∀ d : Nat, d < 2 ^ 64 → isNaN64 d = true →
      decode (0xfb :: toBytesBE 8 d) {} = Except.ok (Value.num canonicalNaN)) ∧
    (∀ x : Nat, isNaN64 x = true → encodeFloat x {} = [0xf9, 0x7e, 0x00]) ∧
    decode [0xf9, 0x7c, 0x00] {} = Except.ok (Value.num posInf) ∧
    decode [0xf9, 0xfc, 0x00] {} = Except.ok (Value.num negInf) ∧
    decode [0xf9, 0x7e, 0x00] {} = Except.ok (Value.num canonicalNaN) ∧
    decode [0xfb, 0x7f, 0xf0, 0x00, 0x00, 0x00, 0x00, 0x00, 0x00] {} =
      Except.ok (Value.num posInf) ∧
    decode [0xfb, 0xff, 0xf0, 0x00, 0x00, 0x00, 0x00, 0x00, 0x00] {} =
      Except.ok (Value.num negInf) ∧
    decode [0xf9, 0x7f, 0xf8] {} = Except.ok (Value.num canonicalNaN) ∧
    decode [0xfa, 0x7f, 0xf8, 0x00, 0x00] {} = Except.ok (Value.num canonicalNaN) ∧
    decode [0xfb, 0x7f, 0xf8, 0x00, 0x00, 0x00, 0x00, 0x00, 0x00] {} =
      Except.ok (Value.num canonicalNaN) ∧
    decode [0xfb, 0x7f, 0xf8, 0xca, 0xfe, 0xde, 0xad, 0xbe, 0xef] {} =
      Except.ok (Value.num canonicalNaN) ∧
    encodeFloat posInf {} = [0xf9, 0x7c, 0x00] ∧
    encodeFloat negInf {} = [0xf9, 0xfc, 0x00] := by
  refine ⟨?_, ?_, ?_, ?_, rfl, rfl, rfl, rfl, rfl, rfl, rfl, rfl, rfl, by decide, by decide⟩
  · intro h hlt he hm
    rw [decode_enc16 h hlt, halfToDouble_nan h he hm]
  · intro w hlt he hm
    rw [decode_enc32 w hlt, singleToDouble_nan w he hm]
  · intro d hlt hnan
    rw [decode_enc64 d hlt]
    simp [canon64, hnan]
  · intro x hnan
    simp [encodeFloat, hnan]

theorem claim_c4_specials_witness :
    (0x7C01 : Nat) < 2 ^ 16 ∧ (0x7C01 : Nat) / 2 ^ 10 % 32 = 31 ∧ (0x7C01 : Nat) % 2 ^ 10 ≠ 0 ∧
    decode (0xf9 :: toBytesBE 2 0x7C01) {} = Except.ok (Value.num canonicalNaN) :=
  ⟨by norm_num, by norm_num, by norm_num,
   claim_c4_specials.1 0x7C01 (by norm_num) (by norm_num) (by norm_num)⟩

/-- C5: every reserved/unassigned minor value under major type 7 (0-19, 24,
28-30) fails with the simple-value error, and each float width fails with its
specific truncation error whenever fewer trailing bytes remain than the width
requires. -/
theorem claim_c5_malformed :
    (∀ minor rest o, minor ≤ 19 ∨ minor = 24 ∨ (28 ≤ minor ∧ minor ≤ 30) →
      decodeMajor7 minor rest o = Except.error "simple values are not supported") ∧
    (∀ rest o, rest.length < 2 →
      decodeMajor7 25 rest o = Except.error "not enough data for float16") ∧
    (∀ rest o, rest.length < 4 →
      decodeMajor7 26 rest o = Except.error "not enough data for float32") ∧
    (∀ rest o, rest.length < 8 →
      decodeMajor7 27 rest o = Except.error "not enough data for float64") ∧
    decode [0xf8, 0x00, 0x00] {} = Except.error "simple values are not supported" ∧
    decode [0xf9, 0x00] {} = Except.error "not enough data for float16" ∧
    decode [0xfa, 0x00, 0x00] {} = Except.error "not enough data for float32" ∧
    decode [0xfb, 0x00, 0x00, 0x00, 0x00] {} = Except.error "not enough data for float64" := by
  refine ⟨?_, ?_, ?_, ?_, rfl, rfl, rfl, rfl⟩
  · intro minor rest o hres
    have h20 : minor ≠ 20 := by omega
    have h21 : minor ≠ 21 := by omega
    have h22 : minor ≠ 22 := by omega
    have h23 : minor ≠ 23 := by omega
    have h25 : minor ≠ 25 := by omega
    have h26 : minor ≠ 26 := by omega
    have h27 : minor ≠ 27 := by omega
    have h31 : minor ≠ 31 := by omega
    simp [decodeMajor7, h20, h21, h22, h23, h25, h26, h27, h31]
  · intro rest o hlen
    obtain _ | ⟨b0, _ | ⟨b1, rest⟩⟩ := rest
    · rfl
    · rfl
    · exfalso; simp at hlen; omega
  · intro rest o hlen
    obtain _ | ⟨b0, _ | ⟨b1, _ | ⟨b2, _ | ⟨b3, rest⟩⟩⟩⟩ := rest
    · rfl
    · rfl
    · rfl
    · rfl
    · exfalso; simp at hlen; omega
  · intro rest o hlen
    obtain _ | ⟨b0, _ | ⟨b1, _ | ⟨b2, _ | ⟨b3, _ | ⟨b4, _ | ⟨b5, _ | ⟨b6, _ | ⟨b7, rest⟩⟩⟩⟩⟩⟩⟩⟩ := rest
    · rfl
    · rfl
    · rfl
    · rfl
    · rfl
    · rfl
    · rfl
    · rfl
    · exfalso; simp at hlen; omega

theorem claim_c5_malformed_witness :
    ((24 : Nat) ≤ 19 ∨ (24 : Nat) = 24 ∨ (28 ≤ (24 : Nat) ∧ (24 : Nat) ≤ 30)) ∧
    decodeMajor7 24 [0x00, 0x00] {} = Except.error "simple values are not supported" :=
  ⟨by norm_num, claim_c5_malformed.1 24 [0x00, 0x00] {} (by norm_num)⟩

/-- C6: a BREAK byte is rejected with the indefinite-length error as soon as
the major-7 decoder sees it when `allowIndefinite` is false, whatever bytes
follow and whatever its structural position; with the default options the
same input instead fails with the structural unexpected-break error raised by
the surrounding array decoder. -/
theorem claim_c6_indefinite :
    (∀ rest o, o.allowIndefinite = false →
      decodeMajor7 31 rest o = Except.error "indefinite length items not allowed") ∧
    decode [0x83, 0x01, 0x02, 0xff] { allowIndefinite := false } =
      Except.error "indefinite length items not allowed" ∧
    decode [0x83, 0x01, 0x02, 0xff] {} =
      Except.error "unexpected break to lengthed array" := by
  refine ⟨?_, rfl, rfl⟩
  intro rest o h
  simp [decodeMajor7, h]

theorem claim_c6_indefinite_witness :
    (DecodeOptions.allowIndefinite { allowIndefinite := false } = false) ∧
    decodeMajor7 31 [0x00] { allowIndefinite := false } =
      Except.error "indefinite length items not allowed" :=
  ⟨rfl, claim_c6_indefinite.1 [0x00] { allowIndefinite := false } rfl⟩

/-- C7: the undefined item (minor 23) is rejected with the undefined error
whenever `allowUndefined` is false, for every option record (so
`coerceUndefinedToNull` is never consulted); when allowed it decodes to null
if `coerceUndefinedToNull` is set and to undefined otherwise, both alone and
inside a structure. -/
theorem claim_c7_undefined :
    (∀ rest o, o.allowUndefined = false →
      decodeMajor7 23 rest o = Except.error "undefined values are not supported") ∧
    (∀ rest o, o.allowUndefined = true → o.coerceUndefinedToNull = true →
      decodeMajor7 23 rest o = Except.ok (Tok7.val Value.vnull, rest)) ∧
    (∀ rest o, o.allowUndefined = true → o.coerceUndefinedToNull = false →
      decodeMajor7 23 rest o = Except.ok (Tok7.val Value.vundefined, rest)) ∧
    decode [0xf7] {} = Except.ok Value.vundefined ∧
    decode [0xf7] { coerceUndefinedToNull := true } = Except.ok Value.vnull ∧
    decode [0xf7] { allowUndefined := false } =
      Except.error "undefined values are not supported" ∧
    decode [0xf7] { allowUndefined := false, coerceUndefinedToNull := true } =
      Except.error "undefined values are not supported" ∧
    decode [0x83, 0x01, 0x02, 0xf7] {} =
      Except.ok (Value.arr [Value.int 1, Value.int 2, Value.vundefined]) ∧
    decode [0x83, 0x01, 0x02, 0xf7] { coerceUndefinedToNull := true } =
      Except.ok (Value.arr [Value.int 1, Value.int 2, Value.vnull]) ∧
    decode [0x83, 0x01, 0x02, 0xf7] { allowUndefined := false } =
      Except.error "undefined values are not supported" := by
  refine ⟨?_, ?_, ?_, rfl, rfl, rfl, rfl, rfl, rfl, rfl⟩
  · intro rest o h
    simp [decodeMajor7, h]
  · intro rest o h hc
    simp [decodeMajor7, h, hc]
  · intro rest o h hc
    simp [decodeMajor7, h, hc]

theorem claim_c7_undefined_witness :
    (DecodeOptions.allowUndefined { allowUndefined := false, coerceUndefinedToNull := true } = false) ∧
    decodeMajor7 23 [0x01] { allowUndefined := false, coerceUndefinedToNull := true } =
      Except.error "undefined values are not supported" :=
  ⟨rfl, claim_c7_undefined.1 [0x01] { allowUndefined := false, coerceUndefinedToNull := true } rfl⟩

theorem isNaN64_false_of_isInf (d : Nat) (h : isInf64 d = true) : isNaN64 d = false := by
  simp only [isInf64, Bool.and_eq_true, decide_eq_true_eq] at h
  simp [isNaN64, h.1, h.2]

/-- C8: after a float token of any width is produced, gating runs in the
fixed order NaN before Infinity before returning the value, and each of the
three widths routes its decoded double through the very same gate. -/
theorem claim_c8_gating :
    (∀ d rest o, isNaN64 d = true → o.allowNaN = false →
      gateFloat d rest o = Except.error "NaN values are not supported") ∧
    (∀ d rest o, isInf64 d = true → o.allowInfinity = false →
      gateFloat d rest o = Except.error "Infinity values are not supported") ∧
    (∀ d rest o, (isNaN64 d = true → o.allowNaN = true) →
      (isInf64 d = true → o.allowInfinity = true) →
      gateFloat d rest o = Except.ok (Tok7.val (Value.num d), rest)) ∧
    (∀ b0 b1 rest o, decodeMajor7 25 (b0 :: b1 :: rest) o =
      gateFloat (halfToDouble (fromBytesBE [b0, b1])) rest o) ∧
    (∀ b0 b1 b2 b3 rest o, decodeMajor7 26 (b0 :: b1 :: b2 :: b3 :: rest) o =
      gateFloat (singleToDouble (fromBytesBE [b0, b1, b2, b3])) rest o) ∧
    (∀ b0 b1 b2 b3 b4 b5 b6 b7 rest o,
      decodeMajor7 27 (b0 :: b1 :: b2 :: b3 :: b4 :: b5 :: b6 :: b7 :: rest) o =
      gateFloat (canon64 (fromBytesBE [b0, b1, b2, b3, b4, b5, b6, b7])) rest o) ∧
    decode [0xf9, 0x7c, 0x00] { allowInfinity := false } =
      Except.error "Infinity values are not supported" ∧
    decode [0xfb, 0x7f, 0xf0, 0x00, 0x00, 0x00, 0x00, 0x00, 0x00] { allowInfinity := false } =
      Except.error "Infinity values are not supported" ∧
    decode [0xf9, 0x7e, 0x00] { allowNaN := false } =
      Except.error "NaN values are not supported" ∧
    decode [0xfb, 0x7f, 0xf8, 0xca, 0xfe, 0xde, 0xad, 0xbe, 0xef] { allowNaN := false } =
      Except.error "NaN values are not supported" := by
  refine ⟨?_, ?_, ?_, fun _ _ _ _ => rfl, fun _ _ _ _ _ _ => rfl,
    fun _ _ _ _ _ _ _ _ _ _ => rfl, rfl, rfl, rfl, rfl⟩
  · intro d rest o hn ho
    simp [gateFloat, hn, ho]
  · intro d rest o hi ho
    have hn := isNaN64_false_of_isInf d hi
    simp [gateFloat, hn, hi, ho]
  · intro d rest o hn hi
    have h1 : (isNaN64 d && !o.allowNaN) = false := by
      cases hnd : isNaN64 d
      · simp
      · simp [hn hnd]
    have h2 : (isInf64 d && !o.allowInfinity) = false := by
      cases hid : isInf64 d
      · simp
      · simp [hi hid]
    simp [gateFloat, h1, h2]

theorem claim_c8_gating_witness :
    isNaN64 canonicalNaN = true ∧
    DecodeOptions.allowNaN { allowNaN := false } = false ∧
    gateFloat canonicalNaN [] { allowNaN := false } =
      Except.error "NaN values are not supported" :=
  ⟨by decide, rfl, claim_c8_gating.1 canonicalNaN [] { allowNaN := false } (by decide) rfl⟩

theorem decodeMajor7_strict (minor : Nat) (rest : List Nat) (o : DecodeOptions) :
    decodeMajor7 minor rest { o with strict := true } = decodeMajor7 minor rest o := rfl

theorem strictIrrelevant (fuel : Nat) :
    (∀ bytes o, decodeItem fuel bytes { o with strict := true } = decodeItem fuel bytes o) ∧
    (∀ n acc bytes o,
      decodeList fuel n acc bytes { o with strict := true } = decodeList fuel n acc bytes o) := by
  induction fuel with
  | zero =>
    constructor
    · intro bytes o; rfl
    · intro n acc bytes o; cases n <;> rfl
  | succ fuel ih =>
    constructor
    · intro bytes o
      cases bytes with
      | nil => rfl
      | cons b rest =>
        simp only [decodeItem]
        split_ifs
        all_goals first
          | rfl
          | rw [ih.2]
    · intro n acc bytes o
      cases n with
      | zero => rfl
      | succ n =>
        simp only [decodeList]
        rw [ih.1]
        cases hres : decodeItem fuel bytes o with
        | error e => rfl
        | ok pr =>
          obtain ⟨tok, rest2⟩ := pr
          cases tok with
          | brk => rfl
          | val v => exact ih.2 n (v :: acc) rest2 o

/-- C9: the `strict` flag changes nothing in this subsystem — decoding any
byte sequence with `strict := true` gives exactly the same result as with the
default options, including non-minimal encodings of the specials. -/
theorem claim_c9_strict_noop :
    (∀ bytes, decode bytes { strict := true } = decode bytes {}) ∧
    decode [0xfb, 0x7f, 0xf0, 0x00, 0x00, 0x00, 0x00, 0x00, 0x00] { strict := true } =
      Except.ok (Value.num posInf) ∧
    decode [0xfb, 0x7f, 0xf8, 0xca, 0xfe, 0xde, 0xad, 0xbe, 0xef] { strict := true } =
      Except.ok (Value.num canonicalNaN) ∧
    decode [0xf9, 0x7f, 0xf8] { strict := true } = Except.ok (Value.num canonicalNaN) := by
  refine ⟨?_, rfl, rfl, rfl⟩
  intro bytes
  exact congrArg finishDecode ((strictIrrelevant (bytes.length + 1)).1 bytes {})

theorem claim_c9_strict_noop_witness :
    decode [0xf9, 0x38, 0x00] { strict := true } = decode [0xf9, 0x38, 0x00] {} :=
  claim_c9_strict_noop.1 [0xf9, 0x38, 0x00]

theorem hexCharVal_hexDigit : ∀ n : Nat, n < 16 → hexCharVal (hexDigit n) = some n := by
  decide

/-- C10: the hex utilities are mutually inverse and idempotent at the type
boundary — `toHex` returns a string argument unchanged, `fromHex` returns a
`Uint8Array` argument unchanged, and `fromHex (toHex b)` recovers every byte
array `b` element for element. -/
theorem claim_c10_hex :
    (∀ s, toHex (ByteLike.str s) = s) ∧
    (∀ b, fromHex (ByteLike.bytes b) = b) ∧
    (∀ b : List Nat, (∀ x ∈ b, x < 256) →
      fromHex (ByteLike.str (toHex (ByteLike.bytes b))) = b) := by
  refine ⟨fun s => rfl, fun b => rfl, ?_⟩
  intro b hb
  show parseHexChars (List.flatten (b.map byteToHexChars)) = b
  induction b with
  | nil => rfl
  | cons x tail ih =>
    have hx : x < 256 := hb x (by simp)
    have hdiv : x / 16 < 16 := Nat.div_lt_of_lt_mul (by omega)
    have hmod : x % 16 < 16 := Nat.mod_lt _ (by norm_num)
    have htail := ih fun y hy => hb y (by simp [hy])
    simp only [List.map_cons, List.flatten_cons, byteToHexChars, List.cons_append,
      parseHexChars, hexCharVal_hexDigit _ hdiv, hexCharVal_hexDigit _ hmod, List.cons.injEq]
    exact ⟨Nat.div_add_mod x 16, by simpa using htail⟩

theorem claim_c10_hex_witness :
    (∀ x ∈ [0xab, 0x00, 0x5f], x < 256) ∧
    fromHex (ByteLike.str (toHex (ByteLike.bytes [0xab, 0x00, 0x5f]))) = [0xab, 0x00, 0x5f] :=
  ⟨by decide, claim_c10_hex.2.2 [0xab, 0x00, 0x5f] (by decide)⟩

end Cborg
